import Mathlib

/-!
Verification of the persistence-and-authentication core of the RFC
discussion application (apps/rfc-app: db.js and server.js).

The relational store (better-sqlite3) is modelled as a functional state:
each table is a list of rows kept in insertion (rowid) order.  Timestamps
are epoch seconds as `Nat` (DATETIME DEFAULT CURRENT_TIMESTAMP and
strftime(%s, now) both have one-second resolution; every operation takes
the current time as an explicit `now` argument).  Row ids assigned by
AUTOINCREMENT are not modelled: no operation of the core reads them back
except createUser, whose lastInsertRowid is tracked via `nextUserId`.

SQL errors are modelled where the schema can raise them on the modelled
operations: the UNIQUE constraints on users.email and login_tokens.token
turn the corresponding inserts into `Except`.  Foreign keys are declared
in the schema but better-sqlite3 leaves the foreign_keys pragma off and
db.js never enables it, so foreign-key enforcement is not modelled.
-/

namespace RfcApp

/-- Row of users(id, email, password_hash, created_at). -/
structure UserRow where
  id : Nat
  email : String
  password_hash : Option String
  created_at : Nat
deriving DecidableEq, Repr

/-- Row of login_tokens in the current shape: expires_at is an INTEGER
epoch-seconds value. -/
structure TokenRow where
  user_id : Nat
  token : String
  expires_at : Nat
  created_at : Nat
deriving DecidableEq, Repr

/-- Row of comments in the current shape: keyed by the string slug. -/
structure CommentRow where
  rfc_slug : String
  user_id : Nat
  body : String
  created_at : Nat
deriving DecidableEq, Repr

/-- Runtime database state once the schema is in the current shape:
each table is its list of rows in rowid order. -/
structure DB where
  users : List UserRow
  comments : List CommentRow
  login_tokens : List TokenRow
  nextUserId : Nat
deriving DecidableEq, Repr

/-- Errors raised by the store on the modelled statements. -/
inductive DBError
  | uniqueViolation
deriving DecidableEq, Repr

/-! Operations of db.js. -/

/-- db.js findUserByEmail: SELECT * FROM users WHERE email = ?. -/
def findUserByEmail (db : DB) (email : String) : Option UserRow :=
  db.users.find? (fun u => u.email == email)

/-- db.js createUser: INSERT INTO users (email) VALUES (?).  Fails when
the UNIQUE constraint on email is violated; on success returns the new
state together with lastInsertRowid. -/
def createUser (db : DB) (now : Nat) (email : String) :
    Except DBError (DB × Nat) :=
  if db.users.any (fun u => u.email == email) then
    .error .uniqueViolation
  else
    .ok ({ db with
             users := db.users ++ [⟨db.nextUserId, email, none, now⟩],
             nextUserId := db.nextUserId + 1 },
         db.nextUserId)

/-- db.js createComment: INSERT INTO comments (rfc_slug, user_id, body)
VALUES (?, ?, ?) with created_at defaulting to the current timestamp. -/
def createComment (db : DB) (now : Nat) (rfcSlug : String) (userId : Nat)
    (body : String) : DB :=
  { db with comments := db.comments ++ [⟨rfcSlug, userId, body, now⟩] }

/-- Projection returned by getCommentsForRfc: SELECT c.body, c.created_at,
u.email (the selected c.id is not modelled, see the header note). -/
structure CommentView where
  body : String
  created_at : Nat
  email : String
deriving DecidableEq, Repr

/-- Comparison used to model ORDER BY c.created_at ASC. -/
def viewLe (a b : CommentView) : Prop :=
  a.created_at ≤ b.created_at

instance : DecidableRel viewLe := fun a b =>
  inferInstanceAs (Decidable (a.created_at ≤ b.created_at))

/-- db.js getCommentsForRfc: SELECT ... FROM comments c JOIN users u ON
c.user_id = u.id WHERE c.rfc_slug = ? ORDER BY c.created_at ASC.  The
inner join keeps only comments whose user exists; ORDER BY is modelled
as a stable sort on created_at over the rowid-ordered rows. -/
def getCommentsForRfc (db : DB) (rfcSlug : String) : List CommentView :=
  let joined := db.comments.filterMap (fun c =>
    if c.rfc_slug == rfcSlug then
      (db.users.find? (fun u => u.id == c.user_id)).map
        (fun u => ⟨c.body, c.created_at, u.email⟩)
    else none)
  joined.insertionSort viewLe

/-- db.js getCommentCounts: SELECT rfc_slug, COUNT(*) FROM comments GROUP
BY rfc_slug, modelled as the counting function. -/
def getCommentCounts (db : DB) (slug : String) : Nat :=
  (db.comments.filter (fun c => c.rfc_slug == slug)).length

/-- db.js createLoginToken: INSERT INTO login_tokens (user_id, token,
expires_at) VALUES (?, ?, ?).  The schema declares token TEXT NOT NULL
UNIQUE, so the insert fails whenever any existing row (for any user)
already holds the same token string. -/
def createLoginToken (db : DB) (now : Nat) (userId : Nat) (token : String)
    (expiresAt : Nat) : Except DBError DB :=
  if db.login_tokens.any (fun t => t.token == token) then
    .error .uniqueViolation
  else
    .ok { db with
            login_tokens := db.login_tokens ++ [⟨userId, token, expiresAt, now⟩] }

/-- db.js findLoginToken: SELECT * FROM login_tokens WHERE user_id = ?
AND token = ? AND expires_at > strftime(%s, now). -/
def findLoginToken (db : DB) (now : Nat) (userId : Nat) (token : String) :
    Option TokenRow :=
  db.login_tokens.find?
    (fun t => t.user_id == userId && t.token == token && now < t.expires_at)

/-- db.js deleteLoginTokensForUser: DELETE FROM login_tokens WHERE
user_id = ?. -/
def deleteLoginTokensForUser (db : DB) (userId : Nat) : DB :=
  { db with login_tokens := db.login_tokens.filter (fun t => t.user_id != userId) }

/-- db.js deleteExpiredLoginTokens: DELETE FROM login_tokens WHERE
expires_at <= strftime(%s, now); rows with expires_at > now are kept. -/
def deleteExpiredLoginTokens (db : DB) (now : Nat) : DB :=
  { db with login_tokens := db.login_tokens.filter (fun t => now < t.expires_at) }

/-! Route handlers of server.js.  Session state (req.session) is passed
explicitly: pendingLogin as a (userId, email) pair, the authenticated
user as a userId.  The random draw of crypto.randomInt(100000, 1000000)
is an explicit argument. -/

/-- Model of the JavaScript String.prototype.trim used by the routes:
drop whitespace from both ends of the character sequence. -/
def trimString (s : String) : String :=
  String.mk (((s.toList.dropWhile Char.isWhitespace).reverse.dropWhile
    Char.isWhitespace).reverse)

/-- Model of the JavaScript String.prototype.toLowerCase used by
POST /login/start. -/
def toLowerString (s : String) : String :=
  String.mk (s.toList.map Char.toLower)

/-- Normalization applied by POST /login/start: req.body.email?.trim().toLowerCase(). -/
def normalizeEmail (raw : String) : String :=
  toLowerString (trimString raw)

/-- Outcome of POST /login/start. -/
inductive StartResult
  /-- Redirect back with the pendingLogin session set; carries the new
  store state, the user id and the issued code. -/
  | ok (db : DB) (userId : Nat) (code : String)
  /-- Empty email after trimming: flash an error, store untouched. -/
  | badEmail
  /-- createLoginToken raised (UNIQUE violation on token); the deletes
  that preceded the insert have already been applied. -/
  | thrown (db : DB)
deriving DecidableEq, Repr

/-- Decidable test for the ok outcome. -/
def StartResult.isOk : StartResult → Bool
  | .ok _ _ _ => true
  | _ => false

/-- Find-or-create step of POST /login/start: look the user up by email
and create it when absent (user = { id: result.lastInsertRowid, email }).
The UNIQUE constraint cannot fire in the create branch because the
insert only runs when the lookup found nothing, so the error arm of the
match is unreachable and modelled as leaving the store untouched. -/
def findOrCreateUser (db : DB) (now : Nat) (email : String) : DB × Nat :=
  match findUserByEmail db email with
  | some u => (db, u.id)
  | none =>
    match createUser db now email with
    | .ok (db1, newId) => (db1, newId)
    | .error _ => (db, db.nextUserId)

/-- server.js POST /login/start: normalize the email, find or create the
user, delete expired tokens, delete all of the users tokens, insert a
fresh token expiring in 10 minutes.  `code` is the string form of the
random draw. -/
def requestLogin (db : DB) (now : Nat) (rawEmail : String) (code : String) :
    StartResult :=
  let email := normalizeEmail rawEmail
  if email = "" then .badEmail
  else
    let fc := findOrCreateUser db now email
    let db2 := deleteExpiredLoginTokens fc.1 now
    let db3 := deleteLoginTokensForUser db2 fc.2
    let expiresAt := now + 10 * 60
    match createLoginToken db3 now fc.2 code expiresAt with
    | .ok db4 => .ok db4 fc.2 code
    | .error _ => .thrown db3

/-- User id resolved by a POST /login/start request: the id of the user
holding the normalized email, or the id the AUTOINCREMENT sequence will
assign when the user is about to be created.  Used to state under which
store states requestLogin succeeds. -/
def startUserId (db : DB) (rawEmail : String) : Nat :=
  match findUserByEmail db (normalizeEmail rawEmail) with
  | some u => u.id
  | none => db.nextUserId

/-- Outcome of POST /login/verify. -/
inductive VerifyResult
  /-- Signed in: req.session.user is set to (userId, email) and the
  store state carries the token deletion. -/
  | ok (db : DB) (userId : Nat) (email : String)
  /-- Missing pending login, empty code, or invalid-or-expired code: a
  flash error, store untouched. -/
  | fail
deriving DecidableEq, Repr

/-- server.js POST /login/verify, given the pendingLogin session pair:
trim the code, look the token up, and on a match delete all of the
users login tokens and sign the user in. -/
def verifyLogin (db : DB) (now : Nat) (userId : Nat) (email : String)
    (rawCode : String) : VerifyResult :=
  let code := trimString rawCode
  if code = "" then .fail
  else
    match findLoginToken db now userId code with
    | none => .fail
    | some _ => .ok (deleteLoginTokensForUser db userId) userId email

/-- Outcome of POST /rfc/:slug/comments (after requireAuth). -/
inductive PostCommentResult
  /-- The slug resolves to no RFC document: 404. -/
  | notFound
  /-- Empty body after trimming: flash an error, store untouched. -/
  | validationError
  /-- Comment stored. -/
  | ok (db : DB)
deriving DecidableEq, Repr

/-- server.js POST /rfc/:slug/comments for an authenticated userId.
Whether getRfcBySlug finds the document is a Boolean input, since the
document registry reads the filesystem and is outside this core. -/
def postComment (db : DB) (now : Nat) (rfcExists : Bool) (slug : String)
    (userId : Nat) (rawBody : String) : PostCommentResult :=
  if !rfcExists then .notFound
  else
    let body := trimString rawBody
    if body = "" then .validationError
    else .ok (createComment db now slug userId body)

/-! Startup schema setup and legacy migrations of db.js.  A store as
found on disk may predate the current shapes, so tables are modelled
with their possible legacy layouts; ensureSchema is the straight-line
statement sequence db.js runs at module load. -/

/-- Timestamp text as stored by the legacy login_tokens shape
(an SQLite datetime string YYYY-MM-DD HH:MM:SS), in structured form. -/
structure DateTime where
  year : Nat
  month : Nat
  day : Nat
  hour : Nat
  minute : Nat
  second : Nat
deriving DecidableEq, Repr

/-- Gregorian leap-year test, as used by the store-native calendar. -/
def isLeapYear (y : Nat) : Bool :=
  y % 4 == 0 && (y % 100 != 0 || y % 400 == 0)

/-- Length of a month in the given year. -/
def daysInMonth (y m : Nat) : Nat :=
  if m == 2 then (if isLeapYear y then 29 else 28)
  else if m == 4 || m == 6 || m == 9 || m == 11 then 30
  else 31

/-- Days from 1970-01-01 to the given civil date (dates from 1970 on,
the domain of every timestamp this application stores). -/
def daysSinceEpoch (y m d : Nat) : Nat :=
  ((List.range (y - 1970)).map (fun i => if isLeapYear (1970 + i) then 366 else 365)).sum
    + ((List.range (m - 1)).map (fun i => daysInMonth y (i + 1))).sum
    + (d - 1)

/-- Store-native timestamp-to-epoch conversion: CAST(strftime(%s, expires_at)
AS INTEGER) applied to a legacy timestamp text. -/
def epochOfDateTime (t : DateTime) : Nat :=
  daysSinceEpoch t.year t.month t.day * 86400
    + t.hour * 3600 + t.minute * 60 + t.second

/-- Row of the legacy comments shape, addressed by the numeric rfc_id
column instead of a slug. -/
structure LegacyCommentRow where
  rfc_id : Nat
  user_id : Nat
  body : String
  created_at : Nat
deriving DecidableEq, Repr

/-- Row of the legacy login_tokens shape: expires_at held as timestamp
text (a non-INTEGER column type). -/
structure LegacyTokenRow where
  user_id : Nat
  token : String
  expires_at : DateTime
  created_at : Nat
deriving DecidableEq, Repr

/-- The comments table in one of its deployed shapes.  PRAGMA
table_info distinguishes them by the presence of the rfc_id column. -/
inductive CommentsTable
  | legacy (rows : List LegacyCommentRow)
  | current (rows : List CommentRow)
deriving DecidableEq, Repr

/-- The login_tokens table in one of its deployed shapes.  PRAGMA
table_info distinguishes them by the declared type of expires_at. -/
inductive TokensTable
  | legacyText (rows : List LegacyTokenRow)
  | current (rows : List TokenRow)
deriving DecidableEq, Repr

/-- The users table: PRAGMA table_info reports whether password_hash
was declared NOT NULL by an earlier deployment. -/
structure UsersTable where
  notNullPasswordHash : Bool
  rows : List UserRow
deriving DecidableEq, Repr

/-- A store as found on disk: each table may be absent or in a legacy
shape; rfcsTableExists records whether the dropped legacy rfcs table is
present.  nextUserId models the users AUTOINCREMENT sequence. -/
structure Store where
  users : Option UsersTable
  comments : Option CommentsTable
  login_tokens : Option TokensTable
  rfcsTableExists : Bool
  nextUserId : Nat
deriving DecidableEq, Repr

/-- db.js startup sequence: CREATE TABLE IF NOT EXISTS for the three
tables, then in order (1) recreate comments empty when the legacy
rfc_id column is present (the old rows are dropped with the old table),
(2) drop the legacy rfcs table, (3) recreate login_tokens converting
expires_at via strftime when its type is not INTEGER, copying rows,
(4) recreate users with password_hash nullable, copying rows unchanged. -/
def ensureSchema (s : Store) : Store :=
  let users0 := s.users.getD ⟨false, []⟩
  let comments0 := s.comments.getD (.current [])
  let tokens0 := s.login_tokens.getD (.current [])
  let comments1 :=
    match comments0 with
    | .legacy _ => CommentsTable.current []
    | c => c
  let tokens1 :=
    match tokens0 with
    | .legacyText rows =>
        TokensTable.current (rows.map (fun r =>
          ⟨r.user_id, r.token, epochOfDateTime r.expires_at, r.created_at⟩))
    | t => t
  let users1 :=
    if users0.notNullPasswordHash then ⟨false, users0.rows⟩ else users0
  { users := some users1,
    comments := some comments1,
    login_tokens := some tokens1,
    rfcsTableExists := false,
    nextUserId := s.nextUserId }

/-- View of a store in the current shape as the runtime state the
operations of db.js run against.  Tables still absent or legacy-shaped
read as empty; after ensureSchema every table is present and current,
so no default is ever taken. -/
def Store.toDB (s : Store) : DB :=
  { users := match s.users with
             | some t => t.rows
             | none => [],
    comments := match s.comments with
                | some (.current rows) => rows
                | _ => [],
    login_tokens := match s.login_tokens with
                    | some (.current rows) => rows
                    | _ => [],
    nextUserId := s.nextUserId }

/-! Helper lemmas shared by the claim theorems. -/

/-- Looking a token up for a user right after deleting every token of
that user finds nothing. -/
theorem findLoginToken_delete_self (db : DB) (now uid : Nat) (code : String) :
    findLoginToken (deleteLoginTokensForUser db uid) now uid code = none := by
  unfold findLoginToken deleteLoginTokensForUser
  rw [List.find?_eq_none]
  intro t ht
  simp only [List.mem_filter, bne_iff_ne, ne_eq] at ht
  simp only [Bool.and_eq_true, beq_iff_eq, decide_eq_true_eq, not_and]
  intro h1 _
  exact absurd h1.1 ht.2

/-- Elimination form for a successful POST /login/verify. -/
theorem verifyLogin_ok_elim
    (db : DB) (now uid : Nat) (email rawCode : String)
    (db' : DB) (uid' : Nat) (email' : String)
    (h : verifyLogin db now uid email rawCode = .ok db' uid' email') :
    trimString rawCode ≠ "" ∧ (findLoginToken db now uid (trimString rawCode)).isSome = true ∧
    db' = deleteLoginTokensForUser db uid ∧ uid' = uid ∧ email' = email := by
  simp only [verifyLogin] at h
  split at h
  · cases h
  · rename_i hne
    split at h
    · cases h
    · rename_i tok hfind
      cases h
      exact ⟨hne, by simp [hfind], rfl, rfl, rfl⟩

/-! Theorems for the claims. -/

/-- C5.  Migration idempotence: running the startup schema-setup and
legacy-migration sequence of db.js twice leaves exactly the state the
first run produced. -/
theorem ensureSchema_idempotent (s : Store) :
    ensureSchema (ensureSchema s) = ensureSchema s := by
  obtain ⟨u, c, t, r, n⟩ := s
  rcases u with _ | ⟨nn, urows⟩ <;>
    rcases c with _ | (crows | crows) <;>
    rcases t with _ | (trows | trows) <;>
    first
    | rfl
    | (rcases nn with _ | _ <;> rfl)

/-- C9.  Legacy numeric-id comment migration: when the comments table
still carries the obsolete rfc_id column, the startup migration
recreates it in the current shape with zero rows. -/
theorem legacy_comments_migration_empties
    (s : Store) (rows : List LegacyCommentRow)
    (h : s.comments = some (.legacy rows)) :
    (ensureSchema s).comments = some (.current []) := by
  simp [ensureSchema, h]

/-- Witness for C9 at a concrete legacy store. -/
theorem legacy_comments_migration_empties_witness :
    (ensureSchema ⟨none, some (.legacy [⟨3, 1, "old", 7⟩]), none, true, 1⟩).comments
      = some (.current []) :=
  legacy_comments_migration_empties _ [⟨3, 1, "old", 7⟩] rfl

/-- C10.  On a successful verification the handler deletes every login
token of the verifying user, not only the matching row: the resulting
state is exactly the delete-all-for-user state and holds no token row
for that user. -/
theorem verify_success_deletes_all_user_tokens
    (db : DB) (now uid : Nat) (email rawCode : String)
    (db' : DB) (uid' : Nat) (email' : String)
    (h : verifyLogin db now uid email rawCode = .ok db' uid' email') :
    db' = deleteLoginTokensForUser db uid ∧
    ∀ t ∈ db'.login_tokens, t.user_id ≠ uid := by
  obtain ⟨-, -, hdb, -, -⟩ := verifyLogin_ok_elim db now uid email rawCode db' uid' email' h
  subst hdb
  refine ⟨rfl, ?_⟩
  intro t ht
  simp only [deleteLoginTokensForUser, List.mem_filter, bne_iff_ne, ne_eq] at ht
  exact ht.2

/-- Witness for C10: issue a code and verify it, then check the user
holds no tokens. -/
theorem verify_success_deletes_all_user_tokens_witness :
    verifyLogin ⟨[⟨1, "a@x", none, 0⟩], [], [⟨1, "482913", 1600, 1000⟩], 2⟩
        1100 1 "a@x" "482913"
      = .ok ⟨[⟨1, "a@x", none, 0⟩], [], [], 2⟩ 1 "a@x" ∧
    (⟨[⟨1, "a@x", none, 0⟩], [], [], 2⟩ : DB) =
      deleteLoginTokensForUser ⟨[⟨1, "a@x", none, 0⟩], [], [⟨1, "482913", 1600, 1000⟩], 2⟩ 1 :=
  ⟨by decide,
   (verify_success_deletes_all_user_tokens
      ⟨[⟨1, "a@x", none, 0⟩], [], [⟨1, "482913", 1600, 1000⟩], 2⟩
      1100 1 "a@x" "482913" ⟨[⟨1, "a@x", none, 0⟩], [], [], 2⟩ 1 "a@x"
      (by decide)).1⟩

/-- C2.  Single-use verification: once a verify call has succeeded, a
second verify call presenting the same code (against any later time)
fails, because the matched token row was deleted. -/
theorem verify_single_use
    (db : DB) (now uid : Nat) (email rawCode : String)
    (db' : DB) (uid' : Nat) (email' : String)
    (h : verifyLogin db now uid email rawCode = .ok db' uid' email')
    (now2 : Nat) (email2 : String) :
    verifyLogin db' now2 uid email2 rawCode = .fail := by
  obtain ⟨hne, -, hdb, -, -⟩ := verifyLogin_ok_elim db now uid email rawCode db' uid' email' h
  subst hdb
  simp only [verifyLogin]
  rw [if_neg hne, findLoginToken_delete_self]

/-- Witness for C2: the concrete double-verify scenario. -/
theorem verify_single_use_witness :
    verifyLogin ⟨[⟨1, "a@x", none, 0⟩], [], [], 2⟩ 1100 1 "a@x" "482913" = .fail :=
  verify_single_use ⟨[⟨1, "a@x", none, 0⟩], [], [⟨1, "482913", 1600, 1000⟩], 2⟩
    1100 1 "a@x" "482913" ⟨[⟨1, "a@x", none, 0⟩], [], [], 2⟩ 1 "a@x"
    (by decide) 1100 "a@x"

/-- C3.  Expiry enforcement: when every token row carrying the presented
code for this user has its expires_at in the past, verification fails,
even though the rows may still physically exist (no purge is needed:
findLoginToken filters by expires_at strictly greater than now). -/
theorem verify_expired_fails
    (db : DB) (now uid : Nat) (email rawCode : String)
    (hexp : ∀ t ∈ db.login_tokens, t.user_id = uid → t.token = trimString rawCode →
      t.expires_at < now) :
    verifyLogin db now uid email rawCode = .fail := by
  have hfind : findLoginToken db now uid (trimString rawCode) = none := by
    unfold findLoginToken
    rw [List.find?_eq_none]
    intro t ht
    simp only [Bool.and_eq_true, beq_iff_eq, decide_eq_true_eq, not_and]
    intro h1 h2
    exact absurd h2 (Nat.lt_asymm (hexp t ht h1.1 h1.2))
  simp only [verifyLogin]
  split
  · rfl
  · rw [hfind]

/-- Witness for C3: an expired token row physically present in the store
still fails verification. -/
theorem verify_expired_fails_witness :
    verifyLogin ⟨[⟨1, "a@x", none, 0⟩], [], [⟨1, "482913", 900, 0⟩], 2⟩
      1000 1 "a@x" "482913" = .fail :=
  verify_expired_fails ⟨[⟨1, "a@x", none, 0⟩], [], [⟨1, "482913", 900, 0⟩], 2⟩
    1000 1 "a@x" "482913" (by decide)

/-- C8.  Non-empty body enforcement: a body that is empty after trimming
is rejected as a validation error with the store untouched, a padded
nonempty body is stored trimmed, and every comment persisted through the
posting route carries a nonempty trimmed body. -/
theorem comment_body_enforcement
    (db : DB) (now : Nat) (slug : String) (uid : Nat) :
    postComment db now true slug uid "   " = .validationError ∧
    postComment db now true slug uid "  hi  " = .ok (createComment db now slug uid "hi") ∧
    ∀ (rfcExists : Bool) (rawBody : String) (db' : DB),
      postComment db now rfcExists slug uid rawBody = .ok db' →
      trimString rawBody ≠ "" ∧
      db'.comments = db.comments ++ [⟨slug, uid, trimString rawBody, now⟩] := by
  have hempty : trimString "   " = "" := by decide
  have hhi : trimString "  hi  " = "hi" := by decide
  refine ⟨?_, ?_, ?_⟩
  · simp [postComment, hempty]
  · simp [postComment, hhi]
  · intro rfcExists rawBody db' h
    simp only [postComment] at h
    split at h
    · cases h
    · split at h
      · cases h
      · rename_i hne
        cases h
        exact ⟨hne, rfl⟩

/-- Witness for C8: the whitespace-only and padded bodies at a concrete
store. -/
theorem comment_body_enforcement_witness :
    postComment ⟨[⟨1, "a@x", none, 0⟩], [], [], 2⟩ 5 true "rfc-1" 1 "   "
        = .validationError ∧
    trimString "  hi  " ≠ "" := by
  refine ⟨(comment_body_enforcement ⟨[⟨1, "a@x", none, 0⟩], [], [], 2⟩ 5 "rfc-1" 1).1, ?_⟩
  exact ((comment_body_enforcement ⟨[⟨1, "a@x", none, 0⟩], [], [], 2⟩ 5 "rfc-1" 1).2.2
    true "  hi  " (createComment ⟨[⟨1, "a@x", none, 0⟩], [], [], 2⟩ 5 "rfc-1" 1 "hi")
    (by decide)).1

/-- Counterexample to C4 as stated: login_tokens.token is globally
UNIQUE, so when the freshly drawn code equals an unexpired token held by
a different user, the insert throws and the request fails even though
the email is well formed.  Here user 1 holds the unexpired code 123456
and a login request for a second user draws the same code:
the deletes have run and the insert has failed. -/
theorem requestLogin_global_collision_counterexample :
    requestLogin ⟨[⟨1, "a@x.com", none, 0⟩], [], [⟨1, "123456", 2000, 0⟩], 2⟩
        1000 "b@x.com" "123456"
      = .thrown ⟨[⟨1, "a@x.com", none, 0⟩, ⟨2, "b@x.com", none, 1000⟩], [],
                 [⟨1, "123456", 2000, 0⟩], 3⟩ := by
  decide

/-- The find-or-create step never touches login tokens and resolves the
user id the way startUserId states it. -/
theorem findOrCreateUser_eq (db : DB) (now : Nat) (email : String) :
    (findOrCreateUser db now email).1.login_tokens = db.login_tokens ∧
    (findOrCreateUser db now email).2 =
      (match findUserByEmail db email with
       | some u => u.id
       | none => db.nextUserId) := by
  cases hf : findUserByEmail db email with
  | some u => simp [findOrCreateUser, hf]
  | none =>
    have hany : db.users.any (fun u => u.email == email) = false := by
      rw [List.any_eq_false]
      intro u hu
      simpa using List.find?_eq_none.mp hf u hu
    simp [findOrCreateUser, hf, createUser, hany]

/-- C4 amended.  The login_tokens.token column is globally UNIQUE, so a
login request can fail when its freshly drawn code equals an unexpired
token of a different user.  For a well-formed email the request succeeds
whenever every stored token equal to the drawn code is already expired
or belongs to the requesting user (the handler deletes expired tokens
and all of the requesting users tokens before inserting). -/
theorem requestLogin_ok_of_no_foreign_live_code
    (db : DB) (now : Nat) (rawEmail code : String)
    (hemail : normalizeEmail rawEmail ≠ "")
    (hcode : ∀ t ∈ db.login_tokens, t.token = code →
      t.expires_at ≤ now ∨ t.user_id = startUserId db rawEmail) :
    (requestLogin db now rawEmail code).isOk = true := by
  obtain ⟨htok, hid⟩ := findOrCreateUser_eq db now (normalizeEmail rawEmail)
  have hid' : (findOrCreateUser db now (normalizeEmail rawEmail)).2 =
      startUserId db rawEmail := hid
  have hins :
      ((deleteLoginTokensForUser
          (deleteExpiredLoginTokens
            (findOrCreateUser db now (normalizeEmail rawEmail)).1 now)
          (findOrCreateUser db now (normalizeEmail rawEmail)).2).login_tokens.any
        (fun t => t.token == code)) = false := by
    rw [List.any_eq_false]
    intro t ht
    simp only [deleteLoginTokensForUser, deleteExpiredLoginTokens, htok, hid',
      List.mem_filter, bne_iff_ne, ne_eq, decide_eq_true_eq] at ht
    obtain ⟨⟨hmem, hlive⟩, hforeign⟩ := ht
    simp only [beq_iff_eq]
    intro heq
    rcases hcode t hmem heq with hexp | hown
    · exact absurd hlive (Nat.not_lt.mpr hexp)
    · exact absurd hown hforeign
  simp only [requestLogin]
  rw [if_neg hemail]
  simp only [createLoginToken, hins]
  rfl

/-- A token lookup for a user over rows from which that users rows were
filtered away finds nothing. -/
theorem find?_login_pred_filter_ne (l : List TokenRow) (now uid : Nat) (code : String) :
    ((l.filter (fun t => t.user_id != uid)).find?
      (fun t => t.user_id == uid && t.token == code && now < t.expires_at)) = none := by
  rw [List.find?_eq_none]
  intro t ht
  simp only [List.mem_filter, bne_iff_ne, ne_eq] at ht
  simp only [Bool.and_eq_true, beq_iff_eq, decide_eq_true_eq, not_and]
  intro h1 _
  exact absurd h1.1 ht.2

/-- Elimination form for a successful POST /login/start: the issued code
is the drawn code, and the token table afterwards is exactly the
surviving unexpired rows of other users followed by the fresh row. -/
theorem requestLogin_ok_state
    (db : DB) (now : Nat) (rawEmail code : String)
    (db' : DB) (uid : Nat) (code' : String)
    (h : requestLogin db now rawEmail code = .ok db' uid code') :
    code' = code ∧
    db'.login_tokens =
      ((db.login_tokens.filter (fun t => now < t.expires_at)).filter
        (fun t => t.user_id != uid)) ++ [⟨uid, code, now + 10 * 60, now⟩] := by
  obtain ⟨htok, -⟩ := findOrCreateUser_eq db now (normalizeEmail rawEmail)
  simp only [requestLogin] at h
  split at h
  · cases h
  · split at h
    · rename_i db4 heq
      cases h
      unfold createLoginToken at heq
      split at heq
      · cases heq
      · cases heq
        refine ⟨rfl, ?_⟩
        simp [deleteLoginTokensForUser, deleteExpiredLoginTokens, htok]
    · cases h

/-- Witness for the amended C4: a fresh email and a code colliding only
with an expired token of another user still succeeds. -/
theorem requestLogin_ok_of_no_foreign_live_code_witness :
    (requestLogin ⟨[⟨1, "a@x.com", none, 0⟩], [], [⟨1, "123456", 900, 0⟩], 2⟩
      1000 "b@x.com" "123456").isOk = true :=
  requestLogin_ok_of_no_foreign_live_code
    ⟨[⟨1, "a@x.com", none, 0⟩], [], [⟨1, "123456", 900, 0⟩], 2⟩
    1000 "b@x.com" "123456" (by decide) (by decide)

/-- C1.  One live token per user: a successful login request leaves the
requesting user with exactly one token row, carrying the code issued by
that most recent request (so after any sequence of issue calls the last
one determines the single live token); and when two requests run
back-to-back before verifying, only the second drawn code verifies while
the first fails although its 10-minute expiry has not elapsed. -/
theorem one_live_token_per_user
    (db db1 db2 : DB) (now1 now2 now' : Nat) (rawEmail c1 c2 : String)
    (uid1 uid2 : Nat) (c1' c2' : String) (email : String)
    (h2 : requestLogin db1 now2 rawEmail c2 = .ok db2 uid2 c2') :
    (c2' = c2 ∧
     db2.login_tokens.filter (fun t => t.user_id == uid2)
       = [⟨uid2, c2, now2 + 10 * 60, now2⟩]) ∧
    (requestLogin db now1 rawEmail c1 = .ok db1 uid1 c1' →
     c1 ≠ c2 → trimString c1 = c1 → c1 ≠ "" →
     trimString c2 = c2 → c2 ≠ "" → now' < now2 + 10 * 60 →
     verifyLogin db2 now' uid2 email c2
         = .ok (deleteLoginTokensForUser db2 uid2) uid2 email ∧
     verifyLogin db2 now' uid2 email c1 = .fail) := by
  obtain ⟨hc2eq, htoks⟩ :=
    requestLogin_ok_state db1 now2 rawEmail c2 db2 uid2 c2' h2
  have hpre : ∀ t ∈ (db1.login_tokens.filter
      (fun t => now2 < t.expires_at)).filter (fun t => t.user_id != uid2),
      t.user_id ≠ uid2 := by
    intro t ht
    simp only [List.mem_filter, bne_iff_ne, ne_eq] at ht
    exact ht.2
  constructor
  · refine ⟨hc2eq, ?_⟩
    rw [htoks, List.filter_append]
    have hnil : ((db1.login_tokens.filter (fun t => now2 < t.expires_at)).filter
        (fun t => t.user_id != uid2)).filter (fun t => t.user_id == uid2) = [] := by
      rw [List.filter_eq_nil_iff]
      intro t ht
      simp only [beq_iff_eq]
      exact hpre t ht
    rw [hnil]
    simp
  · intro h1 hne ht1 hne1 ht2 hne2 hnow
    have hfind2 : findLoginToken db2 now' uid2 c2
        = some ⟨uid2, c2, now2 + 10 * 60, now2⟩ := by
      unfold findLoginToken
      rw [htoks, List.find?_append, find?_login_pred_filter_ne]
      simp [List.find?, hnow]
    have hfind1 : findLoginToken db2 now' uid2 c1 = none := by
      unfold findLoginToken
      rw [htoks, List.find?_append, find?_login_pred_filter_ne]
      have hbe : (c2 == c1) = false := beq_eq_false_iff_ne.mpr (fun h => hne h.symm)
      simp [List.find?, hbe]
    constructor
    · simp only [verifyLogin, ht2]
      rw [if_neg hne2, hfind2]
    · simp only [verifyLogin, ht1]
      rw [if_neg hne1, hfind1]

/-- Witness for C1: two concrete back-to-back login requests for the
same email; the second code held, the first gone. -/
theorem one_live_token_per_user_witness :
    (⟨[⟨1, "a@x.com", none, 50⟩], [], [⟨1, "222222", 660, 60⟩], 2⟩ :
        DB).login_tokens.filter (fun t => t.user_id == 1)
        = [⟨1, "222222", 60 + 10 * 60, 60⟩] ∧
    verifyLogin ⟨[⟨1, "a@x.com", none, 50⟩], [], [⟨1, "222222", 660, 60⟩], 2⟩
        100 1 "a@x.com" "222222"
        = .ok (deleteLoginTokensForUser
            ⟨[⟨1, "a@x.com", none, 50⟩], [], [⟨1, "222222", 660, 60⟩], 2⟩ 1)
          1 "a@x.com" ∧
    verifyLogin ⟨[⟨1, "a@x.com", none, 50⟩], [], [⟨1, "222222", 660, 60⟩], 2⟩
        100 1 "a@x.com" "111111" = .fail := by
  have h := one_live_token_per_user ⟨[], [], [], 1⟩
    ⟨[⟨1, "a@x.com", none, 50⟩], [], [⟨1, "111111", 650, 50⟩], 2⟩
    ⟨[⟨1, "a@x.com", none, 50⟩], [], [⟨1, "222222", 660, 60⟩], 2⟩
    50 60 100 "a@x.com" "111111" "222222" 1 1 "111111" "222222" "a@x.com"
    (by decide)
  have hs := h.2 (by decide) (by decide) (by decide) (by decide) (by decide)
    (by decide) (by decide)
  exact ⟨h.1.2, hs.1, hs.2⟩

/-- C6.  Legacy token-shape migration preserves compatible data: when
login_tokens still stores expires_at as timestamp text, the migration
recreates the table keeping every row with expires_at replaced by the
store-native timestamp-to-epoch conversion of the old value, and every
previously-unexpired token is still found by the verify lookup. -/
theorem legacy_token_migration_preserves
    (s : Store) (rows : List LegacyTokenRow)
    (h : s.login_tokens = some (.legacyText rows)) :
    (ensureSchema s).login_tokens =
      some (.current (rows.map (fun r =>
        ⟨r.user_id, r.token, epochOfDateTime r.expires_at, r.created_at⟩))) ∧
    ∀ r ∈ rows, ∀ now : Nat, now < epochOfDateTime r.expires_at →
      (findLoginToken (ensureSchema s).toDB now r.user_id r.token).isSome = true := by
  have hmig : (ensureSchema s).login_tokens =
      some (.current (rows.map (fun r =>
        ⟨r.user_id, r.token, epochOfDateTime r.expires_at, r.created_at⟩))) := by
    simp [ensureSchema, h]
  refine ⟨hmig, ?_⟩
  intro r hr now hnow
  have htoks : (ensureSchema s).toDB.login_tokens =
      rows.map (fun r =>
        ⟨r.user_id, r.token, epochOfDateTime r.expires_at, r.created_at⟩) := by
    simp [Store.toDB, hmig]
  unfold findLoginToken
  rw [htoks]
  simp only [List.find?_isSome]
  refine ⟨⟨r.user_id, r.token, epochOfDateTime r.expires_at, r.created_at⟩,
    List.mem_map_of_mem _ hr, ?_⟩
  simp [hnow]

/-- Witness for C6: a legacy store holding a token expiring at the start
of 2030 keeps its row across the migration and still verifies. -/
theorem legacy_token_migration_preserves_witness :
    (ensureSchema ⟨none, none,
        some (.legacyText [⟨1, "482913", ⟨2030, 1, 1, 0, 0, 0⟩, 9⟩]), false, 2⟩).login_tokens
      = some (.current [⟨1, "482913", 1893456000, 9⟩]) ∧
    (findLoginToken (ensureSchema ⟨none, none,
        some (.legacyText [⟨1, "482913", ⟨2030, 1, 1, 0, 0, 0⟩, 9⟩]), false, 2⟩).toDB
      1000000000 1 "482913").isSome = true := by
  have h := legacy_token_migration_preserves
    ⟨none, none, some (.legacyText [⟨1, "482913", ⟨2030, 1, 1, 0, 0, 0⟩, 9⟩]), false, 2⟩
    [⟨1, "482913", ⟨2030, 1, 1, 0, 0, 0⟩, 9⟩] rfl
  refine ⟨?_, h.2 ⟨1, "482913", ⟨2030, 1, 1, 0, 0, 0⟩, 9⟩ (by decide)
    1000000000 (by decide)⟩
  rw [h.1]
  decide

/-- C7.  Comment ordering: three comments inserted for a slug with no
prior comments, at nondecreasing timestamps and by existing users, are
listed back in insertion order by the ascending-created_at query. -/
theorem comment_insertion_order
    (db : DB) (slug : String) (uid1 uid2 uid3 : Nat) (u1 u2 u3 : UserRow)
    (b1 b2 b3 : String) (t1 t2 t3 : Nat)
    (hfresh : ∀ c ∈ db.comments, c.rfc_slug ≠ slug)
    (h1 : db.users.find? (fun u => u.id == uid1) = some u1)
    (h2 : db.users.find? (fun u => u.id == uid2) = some u2)
    (h3 : db.users.find? (fun u => u.id == uid3) = some u3)
    (h12 : t1 ≤ t2) (h23 : t2 ≤ t3) :
    getCommentsForRfc
        (createComment (createComment (createComment db t1 slug uid1 b1)
          t2 slug uid2 b2) t3 slug uid3 b3) slug
      = [⟨b1, t1, u1.email⟩, ⟨b2, t2, u2.email⟩, ⟨b3, t3, u3.email⟩] := by
  have hjoin : (((db.comments ++ ([⟨slug, uid1, b1, t1⟩] : List CommentRow))
        ++ ([⟨slug, uid2, b2, t2⟩] : List CommentRow))
        ++ ([⟨slug, uid3, b3, t3⟩] : List CommentRow)).filterMap (fun (c : CommentRow) =>
          if c.rfc_slug == slug then
            (db.users.find? (fun (u : UserRow) => u.id == c.user_id)).map
              (fun (u : UserRow) => (⟨c.body, c.created_at, u.email⟩ : CommentView))
          else none)
      = [⟨b1, t1, u1.email⟩, ⟨b2, t2, u2.email⟩, ⟨b3, t3, u3.email⟩] := by
    simp [List.filterMap_append, h1, h2, h3]
    intro a ha hslug
    exact absurd hslug (hfresh a ha)
  have hsorted : List.Sorted viewLe
      [⟨b1, t1, u1.email⟩, ⟨b2, t2, u2.email⟩, ⟨b3, t3, u3.email⟩] := by
    simp only [List.sorted_cons, List.mem_cons, List.mem_singleton]
    refine ⟨?_, ?_, ?_⟩
    · intro b hb
      rcases hb with rfl | rfl | h
      · exact h12
      · exact le_trans h12 h23
      · cases h
    · intro b hb
      rcases hb with rfl | h
      · exact h23
      · cases h
    · simp [List.Sorted]
  simp only [createComment, getCommentsForRfc]
  rw [hjoin]
  exact hsorted.insertionSort_eq

/-- Witness for C7: three concrete comments by one user come back in
insertion order. -/
theorem comment_insertion_order_witness :
    getCommentsForRfc
        (createComment (createComment (createComment
          ⟨[⟨1, "u@x", none, 0⟩], [], [], 2⟩ 10 "rfc-1" 1 "one")
          10 "rfc-1" 1 "two") 11 "rfc-1" 1 "three") "rfc-1"
      = [⟨"one", 10, "u@x"⟩, ⟨"two", 10, "u@x"⟩, ⟨"three", 11, "u@x"⟩] :=
  comment_insertion_order ⟨[⟨1, "u@x", none, 0⟩], [], [], 2⟩ "rfc-1" 1 1 1
    ⟨1, "u@x", none, 0⟩ ⟨1, "u@x", none, 0⟩ ⟨1, "u@x", none, 0⟩
    "one" "two" "three" 10 10 11
    (by decide) (by decide) (by decide) (by decide) (by decide) (by decide)

end RfcApp
